import Mathlib

/-!
Verification of the skill dispatch core of botframework-solutions: a shallow
embedding of SkillDialog (sdk/typescript/libraries/botbuilder-skills/src/skillDialog.ts)
and SkillWebSocketTransport
(lib/typescript/botbuilder-skills/src/websocket/skillWebSocketTransport.ts),
with theorems settling the behavioural claims about slot matching, the
forward-to-skill loop, the skill-switch confirmation sub-flow, endpoint
normalisation and error propagation.

Conventions of the embedding: machine strings are Lean String values except for
URLs, which are character lists so that the JS replace-first-occurrence can be
modelled recursively; activities carry only the fields the dispatcher reads;
the streaming transport is abstracted as a script of exchanges, one entry per
send, each entry saying whether the send throws, what optional handoff it
returns, and which callback activities it pushes onto the queued-responses
buffer; the recursion of the dialog send loop is driven by a fuel parameter
that bounds its depth, with a distinguished out-of-fuel outcome. Trace
activities sent to the host surface for observability are not modelled.
-/

/-- embeds the ISlot shape from the manifest model: a slot has a name and a type. -/
structure ISlot where
  name : String
  slotType : String
deriving Repr, DecidableEq

/-- embeds the action definition shape: the ordered slot list of one action. -/
structure IActionDefinition where
  slots : List ISlot
deriving Repr, DecidableEq

/-- embeds the IAction shape: a named capability with its definition. -/
structure IAction where
  id : String
  definition : IActionDefinition
deriving Repr, DecidableEq

/-- embeds the ISkillManifest shape: the fields the dispatcher consumes. -/
structure ISkillManifest where
  id : String
  name : String
  endpoint : String
  msaAppId : String
  actions : List IAction
deriving Repr, DecidableEq

/-- embeds the SemanticAction payload: id, entity map and state; entity values are
modelled opaquely as strings. -/
structure SemanticAction where
  id : String
  entities : List (String × String)
  state : String
deriving Repr, DecidableEq

/-- embeds the Activity fields the dispatcher reads and writes; the optional name
field is modelled with the empty string for absent. -/
structure Activity where
  type : String
  name : String
  text : Option String
  speak : Option String
  semanticAction : Option SemanticAction
deriving Repr, DecidableEq

/-- Modelled from the spec: SkillContext, a typed key/value slot store scoped to the
conversation (section 3); its class ships outside the provided sources. It is an
association list whose leftmost binding for a key wins, values opaque as strings. -/
abbrev SkillContext := List (String × String)

/-- Modelled from the spec: exact-key lookup in the SkillContext store. -/
def SkillContext.getObj (ctx : SkillContext) (name : String) : Option String :=
  (ctx.find? (fun p => p.1 == name)).map (fun p => p.2)

/-- Modelled from the spec: store a value under a key; the new binding shadows any
older one. -/
def SkillContext.setObj (ctx : SkillContext) (name : String) (value : String) :
    SkillContext :=
  (name, value) :: ctx

/-- Modelled from the spec: the well-known fallback-request event name (section 6);
the SkillEvents constants file is outside the provided sources. -/
def SkillEvents.fallbackEventName : String := "fallback-request"

/-- Modelled from the spec: the well-known fallback-handled event name (section 6). -/
def SkillEvents.fallbackHandledEventName : String := "fallback-handled"

/-- Modelled from the spec: the well-known cancel-all-skill-dialogs event name
(section 6). -/
def SkillEvents.cancelAllSkillDialogsEventName : String := "cancel-all-skill-dialogs"

/-- Modelled from the spec: the semantic-action state value marking the start of a
skill invocation (sections 4.1 and 6); the skillConstants file is outside the
provided sources. -/
def skillConstants.skillStart : String := "start"

/-- embeds SkillDialog.matchSkillContextToSlots (skillDialog.ts lines 269-289): for
each action slot, an exact-name lookup in the SkillContext; hits are copied into a
fresh slot store. The per-match trace activity goes to the host surface only and is
not modelled. -/
def matchSkillContextToSlots (actionSlots : List ISlot) (skillContext : SkillContext) :
    SkillContext :=
  let slots : SkillContext := []
  if actionSlots.length > 0 then
    actionSlots.foldl
      (fun slots slot =>
        match SkillContext.getObj skillContext slot.name with
        | some value => SkillContext.setObj slots slot.name value
        | none => slots)
      slots
  else slots

/-- embeds the reduce at SkillDialog.onBeginDialog lines 191-199: the union of every
action's slots, where each action's slots are filtered against the accumulator so
that a name already collected is not added again. -/
def enumerateSkillSlots (actions : List IAction) : List ISlot :=
  actions.foldl
    (fun acc curr =>
      acc ++ curr.definition.slots.filter
        (fun slot => !(acc.any (fun item => item.name == slot.name))))
    []

/-- The slot union as the spec words it for the empty-action case: concatenate all
actions' slots and deduplicate by slot name keeping the first occurrence. Stated
separately from enumerateSkillSlots so the two can be compared. -/
def dedupByName (slots : List ISlot) : List ISlot :=
  slots.foldl
    (fun acc s => if acc.any (fun t => t.name == s.name) then acc else acc ++ [s])
    []

/-- URLs are modelled as character lists so the JS first-occurrence replace can be
written recursively. -/
abbrev Chars := List Char

/-- the scheme constant written http followed by colon-slash-slash in the source. -/
def httpScheme : Chars := ['h', 't', 't', 'p', ':', '/', '/']

/-- the scheme constant written https followed by colon-slash-slash in the source. -/
def httpsScheme : Chars := ['h', 't', 't', 'p', 's', ':', '/', '/']

/-- the ws scheme constant of the source. -/
def wsScheme : Chars := ['w', 's', ':', '/', '/']

/-- the wss scheme constant of the source. -/
def wssScheme : Chars := ['w', 's', 's', ':', '/', '/']

/-- embeds the JS String replace with a string pattern as used at
skillWebSocketTransport.ts lines 148-153: the first occurrence of pat, scanning
from the left, is replaced by repl; absent the pattern, the string is unchanged. -/
def replaceFirst : Chars → Chars → Chars → Chars
  | [], pat, repl => if pat.isPrefixOf [] then repl else []
  | c :: cs, pat, repl =>
      if pat.isPrefixOf (c :: cs) then repl ++ (c :: cs).drop pat.length
      else c :: replaceFirst cs pat repl

/-- embeds SkillWebSocketTransport.ensureWebSocketUrl (lines 137-157): an empty URL
throws; a URL starting with the http scheme has that first occurrence replaced by
the ws scheme; likewise https to wss; anything else passes through unchanged. -/
def ensureWebSocketUrl (url : Chars) : Except String Chars :=
  if url = [] then .error "url is empty!"
  else if httpScheme.isPrefixOf url then .ok (replaceFirst url httpScheme wsScheme)
  else if httpsScheme.isPrefixOf url then .ok (replaceFirst url httpsScheme wssScheme)
  else .ok url

/-- embeds DialogTurnStatus: the turn statuses the dispatcher produces or tests. -/
inductive DialogTurnStatus where
  | waiting
  | complete
  | cancelled
deriving Repr, DecidableEq

/-- The values the dispatcher stores in DialogTurnResult.result: the JS undefined,
a boolean, a string (a recognized skill id), the entity map of a handoff, or the
router Restart signal. -/
inductive TurnValue where
  | undefinedV
  | boolV (b : Bool)
  | stringV (s : String)
  | entitiesV (entities : List (String × String))
  | restartSignal
deriving Repr, DecidableEq

/-- embeds DialogTurnResult: a status and the value carried with it. -/
structure DialogTurnResult where
  status : DialogTurnStatus
  result : TurnValue
deriving Repr, DecidableEq

/-- JS truthiness of the modelled result values, as tested at skillDialog.ts line
252: undefined is falsy, a boolean is itself, a string is truthy when nonempty,
objects are truthy. -/
def jsTruthy : TurnValue → Bool
  | .undefinedV => false
  | .boolV b => b
  | .stringV s => !(s == "")
  | .entitiesV _ => true
  | .restartSignal => true

/-- Modelled from the spec: the pluggable Skill Intent Recognizer (section 2); its
recognition result for the current turn and its confirm-switch flag are supplied as
data since the recognizer itself is host-provided. -/
structure ISkillIntentRecognizer where
  recognizedSkill : Option String
  confirmIntentSwitch : Bool
deriving Repr, DecidableEq

/-- One transport exchange as observed by SkillDialog.forwardToSkill: the send
either throws, or returns an optional handoff activity after the transport has
pushed the given callback activities onto queuedResponses, in push order. -/
inductive TransportBehavior where
  | throws
  | returns (handoff : Option Activity) (queued : List Activity)
deriving Repr, DecidableEq

/-- Observable actions of the dispatcher: a transport send of an activity, a
best-effort remote-dialog cancellation, starting the confirm-switch sub-flow, and
ending the dialog with a value. -/
inductive DispatchEvent where
  | sent (a : Activity)
  | cancelledRemote
  | beganConfirmFlow (targetIntent : String)
  | endedDialog (v : TurnValue)
deriving Repr, DecidableEq

/-- Outcome of a forward-to-skill run: a dialog turn result, a rethrown transport
error (after the catch block ended the dialog), or fuel exhaustion of the model. -/
inductive ForwardOutcome where
  | ok (r : DialogTurnResult)
  | transportError
  | fuelOut
deriving Repr, DecidableEq

/-- State returned by the forward-to-skill loop: its outcome, the unconsumed
transport script, the remaining queued responses and the chronological event
list. -/
structure RunOut where
  result : ForwardOutcome
  script : List TransportBehavior
  queue : List Activity
  events : List DispatchEvent
deriving Repr, DecidableEq

/-- The two positions of the send loop: about to send an activity, or draining the
queued responses with the current dialog result in hand. -/
inductive RunMode where
  | forward (activity : Activity)
  | drain (dialogResult : DialogTurnResult)
deriving Repr, DecidableEq

/-- embeds the strict equality at skillDialog.ts line 325, which compares the popped
queue entry itself (an activity object, or undefined) with the event-name string:
under JS strict equality an object is never equal to a string and neither is
undefined, so the comparison is constantly false. -/
def jsStrictEqActivityString (_lastEvent : Option Activity) (_s : String) : Bool :=
  false

/-- embeds the ternary at skillDialog.ts line 313: the value handed to endDialog is
the handoff activity's semantic-action entities when a semantic action is present,
and undefined otherwise. -/
def handoffResultValue (handoffActivity : Activity) : TurnValue :=
  match handoffActivity.semanticAction with
  | some sa => .entitiesV sa.entities
  | none => .undefinedV

/-- embeds SkillDialog.forwardToSkill (skillDialog.ts lines 298-373), the mutually
recursive pair of one transport send and the queued-responses drain loop, driven by
fuel. A send consumes the head of the transport script (an exhausted script is a
send that throws). On a handoff the dialog is ended with handoffResultValue. With
no handoff the loop pops the most recent queued response; the comparison of the
popped entry with the fallback event name (line 325) is jsStrictEqActivityString
and never fires, so the rename/recognizer block below it is unreachable, though it
is embedded as written; the popped entry is then re-sent and the loop continues
with the returned result. Any throw is caught, the dialog is ended, and the error
is rethrown to the caller. -/
def runStep (recog : Option ISkillIntentRecognizer) (skillId : String) :
    Nat → RunMode → List TransportBehavior → List Activity → RunOut
  | 0, .drain dialogResult, script, [] =>
      { result := .ok dialogResult, script := script, queue := [], events := [] }
  | 0, _, script, queue =>
      { result := .fuelOut, script := script, queue := queue, events := [] }
  | fuel + 1, .forward a, script, queue =>
      match script with
      | [] =>
          { result := .transportError, script := [], queue := queue,
            events := [.sent a, .endedDialog .undefinedV] }
      | .throws :: rest =>
          { result := .transportError, script := rest, queue := queue,
            events := [.sent a, .endedDialog .undefinedV] }
      | .returns (some handoffActivity) pushes :: rest =>
          let v := handoffResultValue handoffActivity
          { result := .ok { status := .complete, result := v }, script := rest,
            queue := queue ++ pushes, events := [.sent a, .endedDialog v] }
      | .returns none pushes :: rest =>
          let inner := runStep recog skillId fuel
            (.drain { status := .waiting, result := .undefinedV }) rest
            (queue ++ pushes)
          match inner.result with
          | .transportError =>
              { result := .transportError, script := inner.script,
                queue := inner.queue,
                events := .sent a :: (inner.events ++ [.endedDialog .undefinedV]) }
          | r =>
              { result := r, script := inner.script, queue := inner.queue,
                events := .sent a :: inner.events }
  | fuel + 1, .drain dialogResult, script, [] =>
      { result := .ok dialogResult, script := script, queue := [], events := [] }
  | fuel + 1, .drain dialogResult, script, x :: xs =>
      let lastEvent := (x :: xs).getLast (List.cons_ne_nil x xs)
      let rest := (x :: xs).dropLast
      let step : Except RunOut Activity :=
        if jsStrictEqActivityString (some lastEvent) SkillEvents.fallbackEventName then
          let renamed :=
            { lastEvent with name := SkillEvents.fallbackHandledEventName }
          match recog with
          | some recognizer =>
              match recognizer.recognizedSkill with
              | some recognizedSkillManifest =>
                  if !(recognizedSkillManifest == skillId) then
                    if recognizer.confirmIntentSwitch then
                      .error { result := .ok { status := .waiting,
                                               result := .undefinedV },
                               script := script, queue := rest,
                               events := [.beganConfirmFlow recognizedSkillManifest] }
                    else
                      .error { result := .ok { status := .complete,
                                               result := .stringV recognizedSkillManifest },
                               script := script, queue := rest,
                               events := [.cancelledRemote,
                                          .endedDialog (.stringV recognizedSkillManifest)] }
                  else .ok renamed
              | none => .ok renamed
          | none => .ok renamed
        else .ok lastEvent
      match step with
      | .error out => out
      | .ok evt =>
          let inner := runStep recog skillId fuel (.forward evt) script rest
          match inner.result with
          | .ok r =>
              let tail := runStep recog skillId fuel (.drain r) inner.script
                inner.queue
              { result := tail.result, script := tail.script, queue := tail.queue,
                events := inner.events ++ tail.events }
          | e =>
              { result := e, script := inner.script, queue := inner.queue,
                events := inner.events }

/-- SkillDialog.forwardToSkill seen from its callers: one send of an activity with
a given starting queued-responses buffer. -/
def forwardToSkill (recog : Option ISkillIntentRecognizer) (skillId : String)
    (fuel : Nat) (script : List TransportBehavior) (activity : Activity)
    (queue : List Activity) : RunOut :=
  runStep recog skillId fuel (.forward activity) script queue

/-- embeds the SkillDialogOption shape: the requested action id. -/
structure SkillDialogOption where
  action : String
deriving Repr, DecidableEq

/-- Outcome of onBeginDialog: either the action-not-found configuration error
thrown before any network send, or the outcome of forwarding. -/
inductive BeginOutcome where
  | actionNotFound
  | forwarded (outcome : ForwardOutcome)
deriving Repr, DecidableEq

/-- embeds the forEachObj call at skillDialog.ts line 207: its callback merely
evaluates the push member of the entity map without invoking it, so the fold
returns the entity map unchanged whatever the matched slots hold. -/
def forEachObjPushNoOp (slots : SkillContext) (entities : List (String × String)) :
    List (String × String) :=
  slots.foldl (fun acc _ => acc) entities

/-- embeds SkillDialog.onBeginDialog (skillDialog.ts lines 149-221). The action name
defaults to empty when no options are given. The semantic-action block at lines
161-210 runs only when the inbound activity already has a semanticAction (the guard
is written not-equal-undefined); inside it, a nonempty action name is looked up in
the manifest — a miss throws the action-not-found error before any transport call —
and a hit with declared slots matches them against the SkillContext, while an empty
action name matches the deduplicated union of all actions' slots instead; the
matched slots are then folded by forEachObjPushNoOp, so the entities attached stay
empty, the state is the skill-start constant exactly when the action name is
nonempty, and the rebuilt semantic action replaces the activity's. Finally the
activity is forwarded. The hand-off trace activity and the transport disconnect are
not modelled. -/
def onBeginDialog (skillManifest : ISkillManifest) (skillContext : SkillContext)
    (options : Option SkillDialogOption) (activity : Activity)
    (recog : Option ISkillIntentRecognizer) (fuel : Nat)
    (script : List TransportBehavior) : BeginOutcome × List DispatchEvent :=
  let dialogOptions : SkillDialogOption :=
    match options with
    | some o => o
    | none => { action := "" }
  let actionName : String := dialogOptions.action
  let activityToSend : Except Unit Activity :=
    match activity.semanticAction with
    | none => .ok activity
    | some _ =>
        if !(actionName == "") then
          match skillManifest.actions.find? (fun item => item.id == actionName) with
          | some action =>
              let slots : SkillContext :=
                if action.definition.slots.length > 0 then
                  matchSkillContextToSlots action.definition.slots skillContext
                else []
              let semanticAction : SemanticAction :=
                { id := actionName,
                  entities := forEachObjPushNoOp slots [],
                  state := skillConstants.skillStart }
              .ok { activity with semanticAction := some semanticAction }
          | none => .error ()
        else
          let skillSlots : List ISlot := enumerateSkillSlots skillManifest.actions
          let slots : SkillContext := matchSkillContextToSlots skillSlots skillContext
          let semanticAction : SemanticAction :=
            { id := actionName,
              entities := forEachObjPushNoOp slots [],
              state := "" }
          .ok { activity with semanticAction := some semanticAction }
  match activityToSend with
  | .error _ => (.actionNotFound, [])
  | .ok toSend =>
      let run := forwardToSkill recog skillManifest.id fuel script toSend []
      (.forwarded run.result, run.events)

/-- embeds the ISkillSwitchConfirmOption shape: the fallback event already renamed,
the target intent, and the original user input to replay on cancellation. -/
structure ISkillSwitchConfirmOption where
  fallbackHandledEvent : Activity
  targetIntent : String
  userInputActivity : Activity
deriving Repr, DecidableEq

/-- What the second waterfall step leaves behind: the observable events, the
turn-context activity's text and speak after the step, and the step's result. -/
structure FinishSwitchOut where
  events : List DispatchEvent
  newText : Option String
  newSpeak : Option String
  turnResult : DialogTurnResult
deriving Repr, DecidableEq

/-- embeds SkillDialog.finishIntentSwitch (skillDialog.ts lines 101-128). With
confirm options present, both the outer guard at line 104 and the inner test at
line 106 check that the options are defined, and the prompt outcome in
stepContext.result is never read, so the branch labelled cancel-skill-switching at
lines 117-123 (which would forward the original user input to the current skill) is
unreachable: the step always cancels the remote skill dialogs, rewrites the
activity text to the stored user input text (empty string when that was undefined)
and the speak field likewise, and ends the waterfall with true. With no options it
ends the waterfall with undefined. -/
def finishIntentSwitch (options : Option ISkillSwitchConfirmOption)
    (promptResult : Bool) (activity : Activity) : FinishSwitchOut :=
  match options with
  | some confirmOptions =>
      { events := [.cancelledRemote],
        newText := some (confirmOptions.userInputActivity.text.getD ""),
        newSpeak := confirmOptions.userInputActivity.speak,
        turnResult := { status := .complete, result := .boolV true } }
  | none =>
      { events := [], newText := activity.text, newSpeak := activity.speak,
        turnResult := { status := .complete, result := .undefinedV } }

/-- embeds SkillDialog.onContinueDialog (skillDialog.ts lines 244-261) for the turn
on which the active dialog is the confirm-skill-switch prompt. The base
onContinueDialog completes the prompt with the user's answer and resumes the
waterfall at finishIntentSwitch with the same options (the framework resumption is
modelled from the spec, the dialog framework being an external collaborator); when
the flow completes, a truthy result is replaced by the router Restart signal and a
falsy one turns the status back to waiting. -/
def onContinueDialogConfirmPrompt (options : Option ISkillSwitchConfirmOption)
    (answer : Bool) (activity : Activity) : FinishSwitchOut × DialogTurnResult :=
  let fin := finishIntentSwitch options answer activity
  let result := fin.turnResult
  if !(result.status == DialogTurnStatus.complete) then (fin, result)
  else if jsTruthy result.result then
    (fin, { status := .complete, result := .restartSignal })
  else (fin, { status := .waiting, result := result.result })

/-- embeds DialogReason: why a dialog method was called. -/
inductive DialogReason where
  | beginCalled
  | continueCalled
  | endCalled
  | cancelCalled
  | nextCalled
  | replaceCalled
deriving Repr, DecidableEq

/-- embeds the error behaviour of SkillWebSocketTransport.forwardToSkill
(skillWebSocketTransport.ts lines 62-99): a failing streamed send is rethrown as a
callback-failed error; after a successful send, a missing recorded handoff activity
throws; otherwise the recorded handoff is returned. -/
def transportForwardToSkill (_activity : Activity) (sendFails : Bool)
    (recordedHandoff : Option Activity) : Except String Activity :=
  if sendFails then .error "Callback failed"
  else
    match recordedHandoff with
    | none => .error "handoffActivity value is Undefined"
    | some h => .ok h

/-- embeds SkillWebSocketTransport.cancelRemoteDialogs (lines 101-111): builds a
reply event named with the cancel-all-skill-dialogs event name and forwards it
through the transport send path with no try/catch of its own, so a send failure
surfaces to the caller. -/
def cancelRemoteDialogs (turnActivity : Activity) (sendFails : Bool)
    (recordedHandoff : Option Activity) : Except String Activity :=
  let cancelRemoteDialogEvent : Activity :=
    { turnActivity with type := "event",
                        name := SkillEvents.cancelAllSkillDialogsEventName }
  transportForwardToSkill cancelRemoteDialogEvent sendFails recordedHandoff

/-- embeds SkillDialog.endDialog (skillDialog.ts lines 129-139): when the dialog is
being cancelled it awaits the transport cancelRemoteDialogs — the transport is
always defined, the constructor substitutes a websocket transport when none is
given — with no try/catch, and only then calls the base endDialog. The returned
boolean is true when the base endDialog was reached; an error from the cancel call
propagates instead. -/
def skillDialogEndDialog (reason : DialogReason) (turnActivity : Activity)
    (sendFails : Bool) (recordedHandoff : Option Activity) : Except String Bool :=
  if reason == DialogReason.cancelCalled then
    match cancelRemoteDialogs turnActivity sendFails recordedHandoff with
    | .error e => .error e
    | .ok _ => .ok true
  else .ok true

/-! ## Helper lemmas about the slot store and the slot folds -/

/-- Lookup after an update: the new binding wins on its own key and is invisible on
any other key. -/
theorem SkillContext.getObj_setObj (ctx : SkillContext) (k v n : String) :
    SkillContext.getObj (SkillContext.setObj ctx k v) n
      = if k == n then some v else SkillContext.getObj ctx n := by
  cases h : k == n <;>
    simp [SkillContext.getObj, SkillContext.setObj, h]

/-- Lookup in the fold of matchSkillContextToSlots over any accumulator: a name
declared by some slot and present in the SkillContext resolves to the context value,
anything else falls through to the accumulator. -/
theorem match_foldl_getObj (skillContext : SkillContext) (name : String) :
    ∀ (l : List ISlot) (acc : SkillContext),
      SkillContext.getObj
        (l.foldl (fun slots slot =>
            match SkillContext.getObj skillContext slot.name with
            | some value => SkillContext.setObj slots slot.name value
            | none => slots) acc) name
        = if l.any (fun slot => slot.name == name)
              && (SkillContext.getObj skillContext name).isSome
          then SkillContext.getObj skillContext name
          else SkillContext.getObj acc name := by
  intro l
  induction l with
  | nil => intro acc; simp
  | cons s l ih =>
      intro acc
      rw [List.foldl_cons, ih]
      cases hs : s.name == name
      case false =>
        have hstep :
            SkillContext.getObj
              (match SkillContext.getObj skillContext s.name with
               | some value => SkillContext.setObj acc s.name value
               | none => acc) name = SkillContext.getObj acc name := by
          cases hcs : SkillContext.getObj skillContext s.name <;>
            simp [SkillContext.getObj_setObj, hs]
        rw [hstep]
        simp [List.any_cons, hs]
      case true =>
        have hname : s.name = name := by simpa using hs
        cases hc : SkillContext.getObj skillContext name
        case none =>
          have hstep :
              SkillContext.getObj
                (match SkillContext.getObj skillContext s.name with
                 | some value => SkillContext.setObj acc s.name value
                 | none => acc) name = SkillContext.getObj acc name := by
            rw [hname, hc]
          rw [hstep]
          simp [List.any_cons, hc]
        case some v =>
          have hstep :
              SkillContext.getObj
                (match SkillContext.getObj skillContext s.name with
                 | some value => SkillContext.setObj acc s.name value
                 | none => acc) name = some v := by
            rw [hname, hc]
            simp [SkillContext.getObj_setObj]
          rw [hstep]
          simp [List.any_cons, hs, hc]

/-- Folding the first-occurrence dedup step over a batch whose names are pairwise
distinct equals appending the batch filtered against the accumulator in one go. -/
theorem dedup_foldl_batch :
    ∀ (l : List ISlot) (acc : List ISlot), (l.map ISlot.name).Nodup →
      l.foldl
          (fun acc s => if acc.any (fun t => t.name == s.name) then acc else acc ++ [s])
          acc
        = acc ++ l.filter (fun s => !(acc.any (fun t => t.name == s.name))) := by
  intro l
  induction l with
  | nil => intro acc _; simp
  | cons s l ih =>
      intro acc hnd
      rw [List.map_cons, List.nodup_cons] at hnd
      obtain ⟨hs, hl⟩ := hnd
      rw [List.foldl_cons, List.filter_cons]
      cases hacc : acc.any (fun t => t.name == s.name)
      case false =>
        simp only [hacc, Bool.false_eq_true, if_false, Bool.not_false, if_true]
        rw [ih (acc ++ [s]) hl]
        have hfc :
            l.filter (fun t => !((acc ++ [s]).any (fun u => u.name == t.name)))
              = l.filter (fun t => !(acc.any (fun u => u.name == t.name))) := by
          refine List.filter_congr ?_
          intro t ht
          have hne : (s.name == t.name) = false := by
            rw [beq_eq_false_iff_ne]
            intro heq
            exact hs (heq ▸ List.mem_map_of_mem ISlot.name ht)
          simp [List.any_append, hne]
        rw [hfc, List.append_assoc, List.singleton_append]
      case true =>
        simp only [hacc, if_true, Bool.not_true, Bool.false_eq_true, if_false]
        exact ih acc hl

/-- Over manifests whose actions each have pairwise-distinct slot names, the
first-occurrence dedup fold of the concatenation of all slots coincides with the
batched filter fold of the source's reduce, for any accumulator. -/
theorem dedup_flatten_eq_enumerate :
    ∀ (actions : List IAction) (acc : List ISlot),
      (∀ a ∈ actions, (a.definition.slots.map ISlot.name).Nodup) →
      ((actions.map (fun a => a.definition.slots)).flatten).foldl
          (fun acc s => if acc.any (fun t => t.name == s.name) then acc else acc ++ [s])
          acc
        = actions.foldl
            (fun acc curr =>
              acc ++ curr.definition.slots.filter
                (fun slot => !(acc.any (fun item => item.name == slot.name))))
            acc := by
  intro actions
  induction actions with
  | nil => intro acc _; rfl
  | cons a as ih =>
      intro acc h
      rw [List.map_cons, List.flatten_cons, List.foldl_append, List.foldl_cons]
      rw [dedup_foldl_batch _ acc (h a (List.mem_cons_self a as))]
      exact ih _ (fun b hb => h b (List.mem_cons_of_mem a hb))

/-- A nonempty pattern placed at the front of a string is found there first, so
replaceFirst substitutes exactly that leading occurrence. -/
theorem replaceFirst_append (p rest repl : Chars) (hp : p ≠ []) :
    replaceFirst (p ++ rest) p repl = repl ++ rest := by
  cases p with
  | nil => exact absurd rfl hp
  | cons c cs =>
      have hpre : (c :: cs).isPrefixOf ((c :: cs) ++ rest) = true :=
        List.isPrefixOf_iff_prefix.mpr (List.prefix_append _ _)
      rw [List.cons_append] at hpre
      rw [List.cons_append]
      rw [replaceFirst, if_pos hpre]
      rw [← List.cons_append, List.drop_left]

/-- When a string extends no list of the form pattern-plus-rest, the boolean prefix
test on it is false. -/
theorem isPrefixOf_false_of_no_append (p url : Chars) (h : ∀ rest, url ≠ p ++ rest) :
    p.isPrefixOf url = false := by
  cases hx : p.isPrefixOf url
  case false => rfl
  case true =>
    obtain ⟨t, ht⟩ := List.isPrefixOf_iff_prefix.mp hx
    exact absurd ht.symm (h t)

/-! ## Claim theorems -/

/-- Claim C6: for every action slot list S and SkillContext, the slot store that
matchSkillContextToSlots produces maps a name to the SkillContext's value exactly
when some slot of S bears that name with an exact match, and holds nothing for any
other name — no entries outside S, no fuzzy matches. -/
theorem c6_match_is_exact_restriction (actionSlots : List ISlot)
    (skillContext : SkillContext) (name : String) :
    SkillContext.getObj (matchSkillContextToSlots actionSlots skillContext) name
      = if actionSlots.any (fun slot => slot.name == name)
        then SkillContext.getObj skillContext name
        else none := by
  unfold matchSkillContextToSlots
  cases actionSlots with
  | nil => simp [SkillContext.getObj]
  | cons s l =>
      simp only [List.length_cons, gt_iff_lt, Nat.succ_pos, if_pos]
      rw [match_foldl_getObj]
      cases hc : SkillContext.getObj skillContext name <;>
        cases ha : (s :: l).any (fun slot => slot.name == name) <;>
          simp [hc, ha, SkillContext.getObj]

/-- Claim C7: for a begin call with an empty action id, the slot list handed to the
SkillContext matching — enumerateSkillSlots over the manifest actions — equals the
concatenated slots of all actions deduplicated by name with the first occurrence
kept, provided each action's slot names are pairwise distinct (the documented
invariant on actions). -/
theorem c7_enumerate_is_dedup_union (actions : List IAction)
    (h : ∀ a ∈ actions, (a.definition.slots.map ISlot.name).Nodup) :
    enumerateSkillSlots actions
      = dedupByName ((actions.map (fun a => a.definition.slots)).flatten) := by
  unfold enumerateSkillSlots dedupByName
  exact (dedup_flatten_eq_enumerate actions [] h).symm

/-- Witness for C7 at a concrete manifest whose two actions share the date slot. -/
theorem c7_witness :
    (∀ a ∈ ([{ id := "createEvent",
               definition := { slots := [{ name := "date", slotType := "s" },
                                         { name := "time", slotType := "s" }] } },
             { id := "updateEvent",
               definition := { slots := [{ name := "date", slotType := "s" },
                                         { name := "location", slotType := "s" }] } }] :
              List IAction),
        (a.definition.slots.map ISlot.name).Nodup) ∧
    enumerateSkillSlots
        [{ id := "createEvent",
           definition := { slots := [{ name := "date", slotType := "s" },
                                     { name := "time", slotType := "s" }] } },
         { id := "updateEvent",
           definition := { slots := [{ name := "date", slotType := "s" },
                                     { name := "location", slotType := "s" }] } }]
      = dedupByName
          (([{ id := "createEvent",
               definition := { slots := [{ name := "date", slotType := "s" },
                                         { name := "time", slotType := "s" }] } },
             { id := "updateEvent",
               definition := { slots := [{ name := "date", slotType := "s" },
                                         { name := "location", slotType := "s" }] } }] :
              List IAction).map (fun a => a.definition.slots)).flatten :=
  ⟨by decide, c7_enumerate_is_dedup_union _ (by decide)⟩

/-- Claim C9: ensureWebSocketUrl maps a URL led by the http scheme to the same URL
led by the ws scheme, a URL led by the https scheme to the same URL led by the wss
scheme, and returns any other nonempty URL unchanged. -/
theorem c9_endpoint_normalization (url : Chars) (h : url ≠ []) :
    (∀ rest, url = httpScheme ++ rest →
        ensureWebSocketUrl url = .ok (wsScheme ++ rest)) ∧
    (∀ rest, url = httpsScheme ++ rest →
        ensureWebSocketUrl url = .ok (wssScheme ++ rest)) ∧
    ((∀ rest, url ≠ httpScheme ++ rest) → (∀ rest, url ≠ httpsScheme ++ rest) →
        ensureWebSocketUrl url = .ok url) := by
  refine ⟨?_, ?_, ?_⟩
  · rintro rest rfl
    have hpre : httpScheme.isPrefixOf (httpScheme ++ rest) = true :=
      List.isPrefixOf_iff_prefix.mpr (List.prefix_append _ _)
    simp only [ensureWebSocketUrl]
    rw [if_neg h, if_pos hpre, replaceFirst_append _ _ _ (by simp [httpScheme])]
  · rintro rest rfl
    have hpre2 : httpsScheme.isPrefixOf (httpsScheme ++ rest) = true :=
      List.isPrefixOf_iff_prefix.mpr (List.prefix_append _ _)
    have hpre1 : httpScheme.isPrefixOf (httpsScheme ++ rest) = false := rfl
    simp only [ensureWebSocketUrl]
    rw [if_neg h, if_neg (by simp [hpre1]), if_pos hpre2,
      replaceFirst_append _ _ _ (by simp [httpsScheme])]
  · intro h1 h2
    have hb1 : httpScheme.isPrefixOf url = false :=
      isPrefixOf_false_of_no_append _ _ h1
    have hb2 : httpsScheme.isPrefixOf url = false :=
      isPrefixOf_false_of_no_append _ _ h2
    simp only [ensureWebSocketUrl]
    rw [if_neg h, if_neg (by simp [hb1]), if_neg (by simp [hb2])]

/-- Witness for C9 on the concrete URL http-scheme-host-slash-x. -/
theorem c9_witness :
    ("http://host/x".toList ≠ ([] : Chars)) ∧
    ensureWebSocketUrl "http://host/x".toList = .ok "ws://host/x".toList := by
  refine ⟨by decide, ?_⟩
  have h := (c9_endpoint_normalization "http://host/x".toList (by decide)).1
    "host/x".toList (by decide)
  rw [h]
  rw [show wsScheme ++ "host/x".toList = "ws://host/x".toList from by decide]

/-- Claim C3: whenever the transport yields a handoff payload for a send, the
invocation is ended — the send loop returns a complete turn result, emitting the
end-dialog event — and the value returned is exactly the handoff activity's
semantic-action entities, or undefined when the handoff carries no semantic action
(handoffResultValue); the queued responses are left undrained and no further script
entry is consumed. -/
theorem c3_handoff_terminates_with_entities (recog : Option ISkillIntentRecognizer)
    (skillId : String) (n : Nat) (handoffActivity activity : Activity)
    (pushes : List Activity) (rest : List TransportBehavior) (queue : List Activity) :
    forwardToSkill recog skillId (n + 1)
        (.returns (some handoffActivity) pushes :: rest) activity queue
      = { result := .ok { status := .complete,
                          result := handoffResultValue handoffActivity },
          script := rest, queue := queue ++ pushes,
          events := [.sent activity,
                     .endedDialog (handoffResultValue handoffActivity)] } := rfl

/-- Claim C10: when the inbound activity carries no semanticAction, onBeginDialog
skips the whole semantic-action block — no manifest lookup, no slot matching, no
action-not-found error however absent the requested action id — and behaves exactly
as forwarding the untouched activity to the skill. -/
theorem c10_no_semantic_action_forwards_untouched (skillManifest : ISkillManifest)
    (skillContext : SkillContext) (options : Option SkillDialogOption)
    (activity : Activity) (recog : Option ISkillIntentRecognizer) (fuel : Nat)
    (script : List TransportBehavior) (h : activity.semanticAction = none) :
    onBeginDialog skillManifest skillContext options activity recog fuel script
      = (.forwarded
            (forwardToSkill recog skillManifest.id fuel script activity []).result,
         (forwardToSkill recog skillManifest.id fuel script activity []).events) := by
  simp only [onBeginDialog, h]

/-- Witness for C10: an action id absent from the manifest, no semanticAction on the
activity; the dialog does not raise action-not-found and sends the activity. -/
theorem c10_witness :
    (({ type := "message", name := "", text := some "hi", speak := none,
        semanticAction := none } : Activity).semanticAction = none) ∧
    onBeginDialog
        { id := "calendar", name := "Calendar", endpoint := "https://cal",
          msaAppId := "app", actions := [] }
        [] (some { action := "missing" })
        { type := "message", name := "", text := some "hi", speak := none,
          semanticAction := none }
        none 1 [.throws]
      = (.forwarded .transportError,
         [.sent { type := "message", name := "", text := some "hi", speak := none,
                  semanticAction := none },
          .endedDialog .undefinedV]) := by
  refine ⟨rfl, ?_⟩
  rw [c10_no_semantic_action_forwards_untouched _ _ _ _ _ _ _ rfl]
  rfl

/-- Claim C5 counterexample: a begin call whose action id is absent from the
manifest but whose inbound activity has no semanticAction neither fails with the
action-not-found error nor avoids the network — the transport send is invoked. -/
theorem c5_counterexample_no_error_one_send :
    onBeginDialog
        { id := "calendar", name := "Calendar", endpoint := "https://cal",
          msaAppId := "app", actions := [] }
        [] (some { action := "missing" })
        { type := "message", name := "", text := some "hi", speak := none,
          semanticAction := none }
        none 1 [.returns none []]
      = (.forwarded (.ok { status := .waiting, result := .undefinedV }),
         [.sent { type := "message", name := "", text := some "hi", speak := none,
                  semanticAction := none }]) := rfl

/-- Claim C5 as amended: when the inbound activity does carry a semanticAction, a
begin call with a nonempty action id that matches no manifest action fails with the
action-not-found error and produces no event at all — in particular, zero transport
sends. -/
theorem c5_action_not_found_aborts_before_send (skillManifest : ISkillManifest)
    (skillContext : SkillContext) (actionName : String) (activity : Activity)
    (recog : Option ISkillIntentRecognizer) (fuel : Nat)
    (script : List TransportBehavior) (sa : SemanticAction)
    (hsa : activity.semanticAction = some sa) (hne : actionName ≠ "")
    (hmiss : skillManifest.actions.find? (fun item => item.id == actionName) = none) :
    onBeginDialog skillManifest skillContext (some { action := actionName })
        activity recog fuel script
      = (.actionNotFound, []) := by
  simp only [onBeginDialog, hsa, hmiss]
  rw [if_pos (by simp [hne])]

/-- Witness for the amended C5 at a concrete manifest and activity. -/
theorem c5_amended_witness :
    (({ type := "message", name := "", text := some "hi", speak := none,
        semanticAction := some { id := "", entities := [], state := "" } } :
          Activity).semanticAction
        = some { id := "", entities := [], state := "" }) ∧
    ("missing" : String) ≠ "" ∧
    (({ id := "calendar", name := "Calendar", endpoint := "https://cal",
        msaAppId := "app",
        actions := [{ id := "createEvent",
                      definition := { slots := [] } }] } :
          ISkillManifest).actions.find? (fun item => item.id == "missing") = none) ∧
    onBeginDialog
        { id := "calendar", name := "Calendar", endpoint := "https://cal",
          msaAppId := "app",
          actions := [{ id := "createEvent", definition := { slots := [] } }] }
        [] (some { action := "missing" })
        { type := "message", name := "", text := some "hi", speak := none,
          semanticAction := some { id := "", entities := [], state := "" } }
        none 1 [.returns none []]
      = (.actionNotFound, []) := by
  refine ⟨rfl, by decide, rfl, ?_⟩
  exact c5_action_not_found_aborts_before_send _ _ _ _ _ _ _ _ rfl (by decide) rfl

/-- Claim C1 (code-bug evidence): with confirm options present and the user
answering no to the confirm prompt, the completed flow still cancels the current
skill's remote dialogs, still rewrites the turn activity's text and speak to the
stored user input, forwards nothing to the current skill — no sent event occurs —
and onContinueDialog still returns the Restart signal, because finishIntentSwitch
never reads the prompt outcome (its second guard retests that the options are
defined) and so the cancel-skill-switching branch is unreachable. -/
theorem c1_decline_still_restarts :
    finishIntentSwitch
        (some { fallbackHandledEvent :=
                  { type := "event", name := SkillEvents.fallbackHandledEventName,
                    text := none, speak := none, semanticAction := none },
                targetIntent := "calendarSkill",
                userInputActivity :=
                  { type := "message", name := "", text := some "book a meeting",
                    speak := some "book a meeting", semanticAction := none } })
        false
        { type := "message", name := "", text := some "no", speak := none,
          semanticAction := none }
      = { events := [.cancelledRemote], newText := some "book a meeting",
          newSpeak := some "book a meeting",
          turnResult := { status := .complete, result := .boolV true } }
    ∧ (onContinueDialogConfirmPrompt
        (some { fallbackHandledEvent :=
                  { type := "event", name := SkillEvents.fallbackHandledEventName,
                    text := none, speak := none, semanticAction := none },
                targetIntent := "calendarSkill",
                userInputActivity :=
                  { type := "message", name := "", text := some "book a meeting",
                    speak := some "book a meeting", semanticAction := none } })
        false
        { type := "message", name := "", text := some "no", speak := none,
          semanticAction := none }).2
      = { status := .complete, result := .restartSignal } :=
  ⟨rfl, rfl⟩

/-- Claim C2 (code-bug evidence): a send that returns no handoff but queues one
fallback-request event, with no intent recognizer configured, re-sends that event
to the same skill and leaves the invocation waiting — but the event still bears the
fallback-request name: the rename to fallback-handled never happens, because the
drain loop compares the popped activity value itself with the event-name string and
that strict equality is constantly false. -/
theorem c2_fallback_resent_without_rename :
    forwardToSkill none "calendarSkill" 3
        [.returns none [{ type := "event", name := SkillEvents.fallbackEventName,
                          text := none, speak := none, semanticAction := none }],
         .returns none []]
        { type := "message", name := "", text := some "hello", speak := none,
          semanticAction := none }
        []
      = { result := .ok { status := .waiting, result := .undefinedV },
          script := [], queue := [],
          events := [.sent { type := "message", name := "", text := some "hello",
                             speak := none, semanticAction := none },
                     .sent { type := "event", name := SkillEvents.fallbackEventName,
                             text := none, speak := none,
                             semanticAction := none }] } := rfl

/-- Claim C8 (code-bug evidence): at the spec's concrete scenario — calendar
manifest with a createEvent action declaring the date slot, a SkillContext holding
date and an unrelated key, action id createEvent, a populated inbound
semanticAction — the slot matching does produce the date binding, yet the semantic
action forwarded to the skill carries empty entities (its id and state are set as
claimed), because the entity-filling fold never writes. -/
theorem c8_entities_left_empty :
    onBeginDialog
        { id := "calendar", name := "Calendar", endpoint := "https://cal",
          msaAppId := "app",
          actions := [{ id := "createEvent",
                        definition :=
                          { slots := [{ name := "date", slotType := "string" }] } }] }
        [("date", "tomorrow"), ("unrelated", "x")]
        (some { action := "createEvent" })
        { type := "message", name := "", text := some "create an event",
          speak := none,
          semanticAction := some { id := "", entities := [], state := "" } }
        none 1 [.returns none []]
      = (.forwarded (.ok { status := .waiting, result := .undefinedV }),
         [.sent { type := "message", name := "", text := some "create an event",
                  speak := none,
                  semanticAction := some { id := "createEvent", entities := [],
                                           state := skillConstants.skillStart } }])
    ∧ matchSkillContextToSlots [{ name := "date", slotType := "string" }]
        [("date", "tomorrow"), ("unrelated", "x")]
      = [("date", "tomorrow")] :=
  ⟨rfl, rfl⟩

/-- Claim C4 counterexample: ending the dialog for cancellation while the
best-effort cancel send fails does not complete — the transport error escapes
skillDialogEndDialog instead of being swallowed. -/
theorem c4_counterexample_cancel_error_escapes :
    skillDialogEndDialog .cancelCalled
        { type := "message", name := "", text := some "hi", speak := none,
          semanticAction := none }
        true none
      = .error "Callback failed" := rfl

/-- Claim C4 as amended: an error thrown by cancelRemoteDialogs propagates out of
SkillDialog.endDialog unchanged when the dialog is ended for cancellation — the
base endDialog is not reached — since the await carries no try/catch. -/
theorem c4_amended_cancel_error_propagates (turnActivity : Activity)
    (sendFails : Bool) (recordedHandoff : Option Activity) (e : String)
    (h : cancelRemoteDialogs turnActivity sendFails recordedHandoff = .error e) :
    skillDialogEndDialog .cancelCalled turnActivity sendFails recordedHandoff
      = .error e := by
  simp only [skillDialogEndDialog, h]
  rfl

/-- Witness for the amended C4: a concrete failing cancel send, whose error is the
one skillDialogEndDialog surfaces. -/
theorem c4_amended_witness :
    cancelRemoteDialogs
        { type := "message", name := "", text := some "hi", speak := none,
          semanticAction := none }
        true none
      = .error "Callback failed" ∧
    skillDialogEndDialog .cancelCalled
        { type := "message", name := "", text := some "hi", speak := none,
          semanticAction := none }
        true none
      = .error "Callback failed" :=
  ⟨rfl, c4_amended_cancel_error_propagates _ _ _ _ rfl⟩
